import Mathlib

/-!
# Ripapp — verification of the commitment-and-claim protocol engine

A shallow embedding of the price-drop insurance engine:

* `src/lib/zk/commitment.ts` — tier table, premium classification, commitment building;
* `src/unnamed/part_002` — field encoding (`toFieldString`), oracle product matching and
  `checkEligibility`, `formatMerkleRoot`/`toHex32`;
* `src/utils/storage.ts` (`policyManager`) — the per-address policy store
  (`savePolicyForAddress`, `updatePolicyForAddress`, `mergePolicyForAddress`);
* `src/unnamed/part_005` — the claim submission coordinator (`handleSubmitClaim`).

JavaScript machine integers / BigInt values are modelled as `Int`/`Nat`; JavaScript
`number` arithmetic on prices is modelled over `ℚ` (all values involved are exact
small decimals); strings are Lean `String`s, with list-based re-implementations of
`trim` / `toLowerCase` / `toUpperCase` so that every definition evaluates by `decide`.
External collaborators (Poseidon, keccak, `Date` parsing, the ledger, the prover)
enter as explicit function parameters or state records; they are never stubbed inside
a definition that the source implements itself.
-/

namespace Ripapp

/-! ## JavaScript string and number primitives -/

/-- The `String.prototype.trim`, over the character list. -/
def jsTrim (s : String) : String :=
  (((s.data.dropWhile Char.isWhitespace).reverse.dropWhile Char.isWhitespace).reverse).asString

/-- The `String.prototype.toLowerCase` (ASCII, which is all the engine feeds it). -/
def jsLower (s : String) : String :=
  (s.data.map Char.toLower).asString

/-- The `String.prototype.toUpperCase` (ASCII). -/
def jsUpper (s : String) : String :=
  (s.data.map Char.toUpper).asString

/-- The `String.prototype.startsWith`. -/
def jsStartsWith (s pre : String) : Bool :=
  s.data.take pre.data.length == pre.data

/-- The `Math.round`: round half toward positive infinity. -/
def jsRound (q : ℚ) : Int := ⌊q + 1/2⌋

/-- Decimal-digit test, the `/^[0-9]+$/` regex of the coordinator. -/
def isDigitString (s : String) : Bool :=
  !s.data.isEmpty && s.data.all (fun c => '0' ≤ c && c ≤ '9')

/-- Value of a decimal-digit string (used after the `/^[0-9]+$/` guard). -/
def parseDecimal (s : String) : Nat :=
  s.data.foldl (fun a c => 10 * a + (c.toNat - '0'.toNat)) 0

/-- Hexadecimal digit test for `BigInt("0x…")` parsing. -/
def isHexDigit (c : Char) : Bool :=
  ('0' ≤ c && c ≤ '9') || ('a' ≤ c && c ≤ 'f') || ('A' ≤ c && c ≤ 'F')

/-- Value of one hexadecimal digit. -/
def hexDigitVal (c : Char) : Nat :=
  if c ≤ '9' then c.toNat - '0'.toNat
  else if c ≤ 'F' then c.toNat - 'A'.toNat + 10
  else c.toNat - 'a'.toNat + 10

/-- Parse a list of hex digits (the part after `0x`); `none` when empty or
containing a non-hex character, mirroring `BigInt("0x…")` throwing. -/
def parseHexDigits (cs : List Char) : Option Nat :=
  if cs ≠ [] ∧ cs.all isHexDigit then
    some (cs.foldl (fun a c => 16 * a + hexDigitVal c) 0)
  else none

/-- The `BigInt(string)` on the string shapes the engine feeds it: surrounding
whitespace is ignored, the empty string is `0`, `0x`/`0X` prefixes select
hexadecimal, otherwise a (possibly `-`-signed) decimal literal; anything else
throws, which we model as `none`. -/
def parseBigInt (s : String) : Option Int :=
  let t := jsTrim s
  if t = "" then some 0
  else if jsStartsWith t "0x" || jsStartsWith t "0X" then
    (parseHexDigits (t.data.drop 2)).map Int.ofNat
  else if t.data.all (fun c => '0' ≤ c && c ≤ '9') then
    some (parseDecimal t : Int)
  else if jsStartsWith t "-" && !(t.data.drop 1).isEmpty
      && (t.data.drop 1).all (fun c => '0' ≤ c && c ≤ '9') then
    some (-(parseDecimal (t.data.drop 1).asString : Int))
  else none

/-- Lowercase hex digit character, as produced by `BigInt.prototype.toString(16)`. -/
def hexDigitChar (n : Nat) : Char :=
  if n < 10 then Char.ofNat ('0'.toNat + n) else Char.ofNat ('a'.toNat + n - 10)

/-- The `n.toString(16)` for a non-negative BigInt: big-endian lowercase hex,
`"0"` for zero. -/
def natToHex (n : Nat) : String :=
  if n = 0 then "0" else ((Nat.digits 16 n).reverse.map hexDigitChar).asString

/-- The `s.padStart(64, '0')`. -/
def padStart64 (s : String) : String :=
  if s.length < 64 then (List.replicate (64 - s.length) '0').asString ++ s else s

/-! ## Tier table and premium classification — `src/lib/zk/commitment.ts` -/

/-- The `TierBoundary` of `commitment.ts`: a closed price band in micro-units. -/
structure TierBoundary where
  min : Int
  max : Int
  tier : Nat
  premium : Int
deriving DecidableEq, Repr

/-- The static `TIER_BOUNDARIES` table of `commitment.ts` (USDC micro-units). -/
def TIER_BOUNDARIES : List TierBoundary :=
  [ ⟨1000000, 99999999, 1, 1000000⟩,
    ⟨100000000, 499000000, 2, 3000000⟩,
    ⟨500000000, 999000000, 3, 7000000⟩,
    ⟨1000000000, 1999000000, 4, 13000000⟩,
    ⟨2000000000, 10000000000, 5, 20000000⟩ ]

/-- Result shape of `calculateTierAndPremium`. -/
structure TierPremium where
  tier : Nat
  premium : Int
deriving DecidableEq, Repr

/-- The scan of `calculateTierAndPremium`: first boundary whose closed interval
contains the price. -/
def scanBoundaries : List TierBoundary → Int → Except String TierPremium
  | [], invoicePrice =>
      .error s!"Invoice price {invoicePrice} outside valid tier ranges"
  | boundary :: rest, invoicePrice =>
      if boundary.min ≤ invoicePrice ∧ invoicePrice ≤ boundary.max then
        .ok ⟨boundary.tier, boundary.premium⟩
      else scanBoundaries rest invoicePrice

/-- The `calculateTierAndPremium` of `commitment.ts`: scans `TIER_BOUNDARIES`
in order and throws when no interval contains the price. -/
def calculateTierAndPremium (invoicePrice : Int) : Except String TierPremium :=
  scanBoundaries TIER_BOUNDARIES invoicePrice

/-! ## Commitment building — `buildCommitment` of `src/lib/zk/commitment.ts`

Poseidon, keccak256 and `Date` parsing are external primitives
(`circomlibjs`, `ethers`, the JS runtime); they appear as function parameters.
The salt is drawn from `crypto.getRandomValues`, i.e. from outside the engine,
so it is likewise a parameter.  Hash values are carried as their BigInt values
rather than intermediate hex strings. -/

/-- The `InvoiceData` of `commitment.ts`; `purchasePriceUsd` is a JS number holding
an exact decimal USD amount, modelled in `ℚ`. -/
structure InvoiceData where
  orderNumber : String
  purchasePriceUsd : ℚ
  purchaseDate : String
  productId : String

/-- The `PurchaseDetails` of `commitment.ts`, with hashes as their integer values. -/
structure PurchaseDetails where
  orderHash : Nat
  invoicePrice : Int
  invoiceDate : Int
  productHash : Nat
  salt : Nat
  selectedTier : Nat
deriving DecidableEq, Repr

/-- Return shape of `buildCommitment`. -/
structure CommitmentResult where
  commitment : String
  details : PurchaseDetails
  tier : Nat
  premium : Int
deriving DecidableEq, Repr

/-- The hex serialization of the commitment:
`'0x' + F.toObject(commitment).toString(16).padStart(64, '0')`. -/
def commitmentHexOf (value : Nat) : String :=
  "0x" ++ padStart64 (natToHex value)

/-- The `buildCommitment` of `commitment.ts`.  `poseidon` is the sponge hash over
field elements, `keccak` is `BigInt(ethers.keccak256(ethers.toUtf8Bytes ·))`,
`parseDateMs` is `new Date(·).getTime()` in milliseconds, `salt` is the
256-bit value read from `crypto.getRandomValues`. -/
def buildCommitment (poseidon : List Int → Nat) (keccak : String → Nat)
    (parseDateMs : String → Int) (invoiceData : InvoiceData) (salt : Nat) :
    Except String CommitmentResult :=
  let orderHash := keccak invoiceData.orderNumber
  let invoicePrice : Int := jsRound (invoiceData.purchasePriceUsd * 1000000)
  let invoiceDate : Int := Int.fdiv (parseDateMs invoiceData.purchaseDate) 1000
  let productHash := poseidon [(keccak invoiceData.productId : Int)]
  match calculateTierAndPremium invoicePrice with
  | .error e => .error e
  | .ok tp =>
    let purchaseDetails : PurchaseDetails :=
      ⟨orderHash, invoicePrice, invoiceDate, productHash, salt, tp.tier⟩
    let commitment := poseidon
      [ (purchaseDetails.orderHash : Int), purchaseDetails.invoicePrice,
        purchaseDetails.invoiceDate, (purchaseDetails.productHash : Int),
        (purchaseDetails.salt : Int), (purchaseDetails.selectedTier : Int) ]
    .ok ⟨commitmentHexOf commitment, purchaseDetails, tp.tier, tp.premium⟩

/-! ## Oracle client — `src/unnamed/part_002` (`oracleClient`) -/

/-- One catalog entry of `GET /api/prices`; prices are micro-unit integers. -/
structure OraclePrice where
  id : String
  name : String
  currentPrice : Int
  basePrice : Int
  change : Int
deriving DecidableEq, Repr

/-- The `normalizeOracleProductId`: uppercase, strip every character outside
`A–Z0–9`, trim. -/
def normalizeOracleProductId (value : String) : String :=
  jsTrim (((jsUpper value).data.filter
    (fun c => ('A' ≤ c && c ≤ 'Z') || ('0' ≤ c && c ≤ '9'))).asString)

/-- The catalog match of `checkEligibility`: when normalizing the requested id
yields a non-empty key, compare normalized ids; otherwise compare
trimmed-lowercased ids exactly. -/
def matchedProduct (prices : List OraclePrice) (productId : String) : Option OraclePrice :=
  let normalizedInputId := normalizeOracleProductId productId
  let trimmedInputId := jsLower (jsTrim productId)
  prices.find? fun price =>
    if normalizedInputId ≠ "" then
      normalizeOracleProductId price.id == normalizedInputId
    else
      jsLower (jsTrim price.id) == trimmedInputId

/-- The `dropAmount = originalPrice > currentPrice ? originalPrice - currentPrice : 0`. -/
def dropAmountOf (originalPrice currentPrice : Int) : Int :=
  if currentPrice < originalPrice then originalPrice - currentPrice else 0

/-- The drop percentage used for the eligibility test:
`originalPriceNumber > 0 ? dropAmount / originalPrice * 100 : 0`. -/
def dropPercentageOf (originalPrice currentPrice : Int) : ℚ :=
  if 0 < originalPrice then
    ((dropAmountOf originalPrice currentPrice : ℚ) / (originalPrice : ℚ)) * 100
  else 0

/-- The `EligibilityResult` of the oracle client; the micro-unit string fields are
carried as their integer values, and `dropPercentage` is the value rounded to
two decimals that the function returns. -/
structure EligibilityResult where
  eligible : Bool
  dropPercentage : ℚ
  dropAmount : Int
  currentPrice : Int
  merkleRoot : String
  payoutAmount : Int
deriving DecidableEq, Repr

/-- The numeric tail of `checkEligibility`, applied to the matched product's
current price. -/
def checkEligibilityCore (originalPrice currentPrice : Int) (dropThresholdPercent : ℚ)
    (merkleRoot : String) : EligibilityResult :=
  let dropAmount := dropAmountOf originalPrice currentPrice
  let dropPercentage := dropPercentageOf originalPrice currentPrice
  { eligible := decide (0 < dropAmount) && decide (dropThresholdPercent ≤ dropPercentage)
    dropPercentage := (jsRound (dropPercentage * 100) : ℚ) / 100
    dropAmount := dropAmount
    currentPrice := currentPrice
    merkleRoot := merkleRoot
    payoutAmount := dropAmount }

/-- The `checkEligibility` of the oracle client, with the already-fetched catalog
(`prices`, `merkleRoot`) as input: match the product id, then evaluate the
price drop; a catalog miss throws `Product … not found in oracle catalog.`. -/
def checkEligibility (prices : List OraclePrice) (merkleRoot : String)
    (productId : String) (originalPrice : Int) (dropThresholdPercent : ℚ) :
    Except String EligibilityResult :=
  match matchedProduct prices productId with
  | none => .error s!"Product {productId} not found in oracle catalog."
  | some p => .ok (checkEligibilityCore originalPrice p.currentPrice dropThresholdPercent merkleRoot)

/-! ## Field encoder — `toFieldString` of `src/unnamed/part_002` (claim proof module) -/

/-- A `string | number | bigint` value fed to `toFieldString`. -/
inductive JsFieldInput where
  | str (s : String)
  | num (n : Int)
  | big (n : Int)
deriving DecidableEq, Repr

/-- The `toFieldString`: bigints and numbers print in decimal; strings are trimmed,
the empty string becomes `"0"`, a `0x`/`0X` string parses as hex and prints in
decimal when valid, and everything else passes through trimmed. -/
def toFieldString (value : JsFieldInput) : String :=
  match value with
  | .big n => toString n
  | .num n => toString n
  | .str s =>
    let trimmed := jsTrim s
    if trimmed = "" then "0"
    else if jsStartsWith trimmed "0x" || jsStartsWith trimmed "0X" then
      match parseHexDigits (trimmed.data.drop 2) with
      | some n => toString n
      | none => trimmed
    else trimmed

/-- The `toHex32` of the claim proof module: `0x` plus the hex digits of the value
padded to 64 characters. -/
def toHex32 (n : Int) : String :=
  let hex := if n < 0 then "-" ++ natToHex n.natAbs else natToHex n.natAbs
  "0x" ++ padStart64 hex

/-- The `formatMerkleRoot`: normalize a root string through `toHex32`, returning the
input unchanged when `BigInt` cannot parse it. -/
def formatMerkleRoot (root : String) : String :=
  match parseBigInt root with
  | some n => toHex32 n
  | none => root

/-! ## Policy store — `src/utils/storage.ts` (`policyManager`) -/

/-- The `PolicyData.status` values. -/
inductive PolicyStatus where
  | active
  | eligible
  | ineligible
  | claimed
deriving DecidableEq, Repr

/-- The `eligibility` snapshot attached to a stored policy; fields marked `?`
in the TypeScript interface are `Option`s.  The opaque `proof` JSON blob is
carried as an uninterpreted string. -/
structure EligibilityInfo where
  checkedAt : Int
  dropPercentage : ℚ
  dropAmount : String
  currentPrice : String
  merkleRoot : Option String
  proof : Option String
  payoutAmount : Option String
deriving DecidableEq, Repr

/-- The `purchaseDetails` as persisted inside a `PolicyData` record. -/
structure StoredPurchaseDetails where
  orderHash : String
  invoicePrice : String
  invoiceDate : Int
  productHash : String
  salt : String
  selectedTier : Nat
  productId : String
deriving DecidableEq, Repr

/-- The `contracts` block of a stored policy. -/
structure ContractAddresses where
  vault : String
  token : String
  verifier : String
deriving DecidableEq, Repr

/-- The `PolicyData` of `policyManager`. -/
structure PolicyData where
  policyId : String
  transactionHash : String
  blockNumber : Int
  policyPurchaseDate : Int
  purchaseDetails : StoredPurchaseDetails
  secretCommitment : String
  premium : String
  tier : Nat
  contracts : ContractAddresses
  createdAt : String
  network : String
  status : Option PolicyStatus
  eligibility : Option EligibilityInfo
  claimTxHash : Option String
  claimedAt : Option Int
deriving DecidableEq, Repr

/-- A `Partial<PolicyData>`: each top-level field is present (`some`) or
absent (`none`) — spread semantics override only present fields. -/
structure PolicyUpdate where
  policyId : Option String := none
  transactionHash : Option String := none
  blockNumber : Option Int := none
  policyPurchaseDate : Option Int := none
  purchaseDetails : Option StoredPurchaseDetails := none
  secretCommitment : Option String := none
  premium : Option String := none
  tier : Option Nat := none
  contracts : Option ContractAddresses := none
  createdAt : Option String := none
  network : Option String := none
  status : Option PolicyStatus := none
  eligibility : Option EligibilityInfo := none
  claimTxHash : Option String := none
  claimedAt : Option Int := none

/-- The `{ ...policy.eligibility, ...updates.eligibility }`: every field present on
the update's snapshot overrides; `Option` sub-fields absent on the update keep
the old value. -/
def mergeEligibility (old : Option EligibilityInfo) (upd : EligibilityInfo) :
    EligibilityInfo :=
  { checkedAt := upd.checkedAt
    dropPercentage := upd.dropPercentage
    dropAmount := upd.dropAmount
    currentPrice := upd.currentPrice
    merkleRoot := match upd.merkleRoot with
      | some v => some v
      | none => match old with | some o => o.merkleRoot | none => none
    proof := match upd.proof with
      | some v => some v
      | none => match old with | some o => o.proof | none => none
    payoutAmount := match upd.payoutAmount with
      | some v => some v
      | none => match old with | some o => o.payoutAmount | none => none }

/-- The merge body of `mergePolicyForAddress`:
`{ ...policy, ...updates, eligibility: updates.eligibility ? deep-merge : policy.eligibility }`. -/
def applyPolicyUpdates (policy : PolicyData) (updates : PolicyUpdate) : PolicyData :=
  { policyId := updates.policyId.getD policy.policyId
    transactionHash := updates.transactionHash.getD policy.transactionHash
    blockNumber := updates.blockNumber.getD policy.blockNumber
    policyPurchaseDate := updates.policyPurchaseDate.getD policy.policyPurchaseDate
    purchaseDetails := updates.purchaseDetails.getD policy.purchaseDetails
    secretCommitment := updates.secretCommitment.getD policy.secretCommitment
    premium := updates.premium.getD policy.premium
    tier := updates.tier.getD policy.tier
    contracts := updates.contracts.getD policy.contracts
    createdAt := updates.createdAt.getD policy.createdAt
    network := updates.network.getD policy.network
    status := match updates.status with
      | some s => some s
      | none => policy.status
    eligibility := match updates.eligibility with
      | some e => some (mergeEligibility policy.eligibility e)
      | none => policy.eligibility
    claimTxHash := match updates.claimTxHash with
      | some v => some v
      | none => policy.claimTxHash
    claimedAt := match updates.claimedAt with
      | some v => some v
      | none => policy.claimedAt }

/-- The browser `localStorage`, restricted to the policy-list keys. -/
def LocalStorage : Type := String → Option (List PolicyData)

/-- The storage key: operations are keyed by the lowercase-normalized address. -/
def policiesKey (walletAddress : String) : String :=
  "zkpp_policies_" ++ jsLower walletAddress

/-- The `getPoliciesForAddress`: parse the stored array, `[]` when absent. -/
def getPoliciesForAddress (ls : LocalStorage) (walletAddress : String) : List PolicyData :=
  (ls (policiesKey walletAddress)).getD []

/-- The `localStorage.setItem`. -/
def setItem (ls : LocalStorage) (key : String) (value : List PolicyData) : LocalStorage :=
  fun k => if k = key then some value else ls k

/-- The `savePolicyForAddress`: a duplicate `transactionHash` makes the save a
no-op, otherwise the record is appended. -/
def savePolicyForAddress (ls : LocalStorage) (walletAddress : String)
    (policyData : PolicyData) : LocalStorage :=
  let existingPolicies := getPoliciesForAddress ls walletAddress
  if existingPolicies.any (fun p => p.transactionHash == policyData.transactionHash) then
    ls
  else
    setItem ls (policiesKey walletAddress) (existingPolicies ++ [policyData])

/-- The `findIndex` + in-place replacement of `updatePolicyForAddress`, on the
first record whose `policyId` matches. -/
def updateFirstPolicy (policyId : String) (updater : PolicyData → PolicyData) :
    List PolicyData → Option (List PolicyData × PolicyData)
  | [] => none
  | p :: rest =>
    if p.policyId == policyId then
      let updated := updater p
      some (updated :: rest, updated)
    else
      match updateFirstPolicy policyId updater rest with
      | none => none
      | some (rest', updated) => some (p :: rest', updated)

/-- The `updatePolicyForAddress`: load, transform the matching record, persist;
`none` (and no write) when the `policyId` is absent. -/
def updatePolicyForAddress (ls : LocalStorage) (walletAddress policyId : String)
    (updater : PolicyData → PolicyData) : LocalStorage × Option PolicyData :=
  match updateFirstPolicy policyId updater (getPoliciesForAddress ls walletAddress) with
  | none => (ls, none)
  | some (updated, policy) =>
      (setItem ls (policiesKey walletAddress) updated, some policy)

/-- The `mergePolicyForAddress`: `updatePolicyForAddress` with the spread-merge body. -/
def mergePolicyForAddress (ls : LocalStorage) (walletAddress policyId : String)
    (updates : PolicyUpdate) : LocalStorage × Option PolicyData :=
  updatePolicyForAddress ls walletAddress policyId
    (fun policy => applyPolicyUpdates policy updates)

/-! ## Concrete fixtures for example-level statements -/

/-- A wallet with no stored policies. -/
def emptyStore : LocalStorage := fun _ => none

/-- A store holding exactly the given records for one wallet. -/
def singleStore (walletAddress : String) (records : List PolicyData) : LocalStorage :=
  fun k => if k = policiesKey walletAddress then some records else none

/-- Sample persisted purchase details. -/
def samplePurchaseDetails : StoredPurchaseDetails :=
  ⟨"0xaa", "199990000", 0, "0xbb", "0xcc", 2, "X1"⟩

/-- Sample contract address block. -/
def sampleContracts : ContractAddresses := ⟨"0xv", "0xt", "0xvf"⟩

/-- A stored policy record with the given identifiers and status. -/
def mkPolicy (policyId transactionHash : String) (status : Option PolicyStatus) :
    PolicyData :=
  { policyId := policyId
    transactionHash := transactionHash
    blockNumber := 1
    policyPurchaseDate := 0
    purchaseDetails := samplePurchaseDetails
    secretCommitment := "0xc0de"
    premium := "3000000"
    tier := 2
    contracts := sampleContracts
    createdAt := "t0"
    network := "anvil-local"
    status := status
    eligibility := none
    claimTxHash := none
    claimedAt := none }

/-! ## Claim submission coordinator — `handleSubmitClaim` of `src/unnamed/part_005` -/

/-- The `ClaimEligibilityState` cached by `handleCheckClaim`; the proof blob is
opaque figure data (`Option` because the guard tests its presence). -/
structure ClaimEligibilityState where
  dropPercentage : ℚ
  dropAmountMicros : String
  currentPriceMicros : String
  formattedDrop : String
  formattedCurrent : String
  merkleRoot : String
  proof : Option String
  payoutAmount : String
  checkedAt : Int
deriving DecidableEq, Repr

/-- The per-policy `ClaimState` of the widget. -/
structure ClaimState where
  eligibility : Option ClaimEligibilityState
  error : Option String
  txHash : Option String
deriving DecidableEq, Repr

/-- One ledger record returned by `vault.policies(id)`. -/
structure LedgerPolicy where
  buyer : String
  commitment : String
  premiumPaid : Int
  purchaseDate : Int
  alreadyClaimed : Bool

/-- The on-chain state `handleSubmitClaim` reads: the published price Merkle
root and the policy mapping (total, as a Solidity mapping). -/
structure VaultState where
  priceMerkleRoot : String
  policies : Nat → LedgerPolicy

/-- Everything outside the policy record that `handleSubmitClaim` consults:
the connected wallet, the cached claim state, proof generation (an external
prover that may fail), the ledger, and the settlement receipt hash. -/
structure SubmitContext where
  address : Option String
  signerAddress : String
  claimState : Option ClaimState
  proofGenerationOk : Bool
  vault : VaultState
  receiptTxHash : String

/-- How one `handleSubmitClaim` run ends.  The error constructors carry the
messages thrown by the source in order of its checks. -/
inductive SubmitOutcome where
  | walletNotConnected
  | missingEligibility
  | invalidPolicyId
  | proofGenerationFailed
  | staleRoot
  | notOwner
  | alreadyClaimed
  | claimed (txHash : String)
deriving DecidableEq, Repr

/-- Predicate holding on every outcome that is not a successful claim. -/
def SubmitOutcome.isRejection : SubmitOutcome → Bool
  | .claimed _ => false
  | _ => true

/-- The `handleSubmitClaim` of `part_005`, as (outcome, whether the `claimPayout`
transaction was submitted to the ledger).  The guards appear in source order:
wallet connected; cached eligibility with a proof; `/^[0-9]+$/` policy id;
proof generation; on-chain root equals the formatted snapshot root
(lower-cased comparison); ledger buyer equals the signer; ledger record not
already claimed.  Only after all of them does `vault.claimPayout(...)` run. -/
def handleSubmitClaim (ctx : SubmitContext) (policy : PolicyData) :
    SubmitOutcome × Bool :=
  match ctx.address with
  | none => (.walletNotConnected, false)
  | some _ =>
    match ctx.claimState with
    | none => (.missingEligibility, false)
    | some claimState =>
      match claimState.eligibility with
      | none => (.missingEligibility, false)
      | some eligibility =>
        if eligibility.proof.isNone then (.missingEligibility, false)
        else if !isDigitString policy.policyId then (.invalidPolicyId, false)
        else if !ctx.proofGenerationOk then (.proofGenerationFailed, false)
        else
          let formattedRoot := formatMerkleRoot eligibility.merkleRoot
          let onChainRoot := ctx.vault.priceMerkleRoot
          let storedPolicy := ctx.vault.policies (parseDecimal policy.policyId)
          if jsLower onChainRoot ≠ jsLower formattedRoot then (.staleRoot, false)
          else if jsLower storedPolicy.buyer ≠ jsLower ctx.signerAddress then (.notOwner, false)
          else if storedPolicy.alreadyClaimed then (.alreadyClaimed, false)
          else (.claimed ctx.receiptTxHash, true)

/-- A cached eligibility snapshot carrying a proof blob and the given root. -/
def sampleEligState (merkleRoot : String) : ClaimEligibilityState :=
  { dropPercentage := 50
    dropAmountMicros := "100000000"
    currentPriceMicros := "99990000"
    formattedDrop := "$100.00"
    formattedCurrent := "$99.99"
    merkleRoot := merkleRoot
    proof := some "proofjson"
    payoutAmount := "100000000"
    checkedAt := 0 }

/-- The hex form that `formatMerkleRoot` gives the root string `"0"`. -/
def zeroRootHex : String := "0x" ++ ((List.replicate 63 '0').asString ++ "0")

/-- A ledger record marked already claimed and owned by `0xwallet`. -/
def claimedLedgerPolicy : LedgerPolicy :=
  { buyer := "0xwallet"
    commitment := "0xc0de"
    premiumPaid := 3000000
    purchaseDate := 0
    alreadyClaimed := true }

/-- A submission context whose on-chain root (`"0x1"`) disagrees with the
snapshot root (`"0"` ≙ `zeroRootHex`), over an already-claimed ledger record. -/
def staleRootCtx : SubmitContext :=
  { address := some "0xwallet"
    signerAddress := "0xwallet"
    claimState := some
      { eligibility := some (sampleEligState "0"), error := none, txHash := none }
    proofGenerationOk := true
    vault := { priceMerkleRoot := "0x1", policies := fun _ => claimedLedgerPolicy }
    receiptTxHash := "0xreceipt" }

/-- A submission context whose on-chain root matches the snapshot root and
whose ledger record is already claimed. -/
def claimedCtx : SubmitContext :=
  { address := some "0xwallet"
    signerAddress := "0xwallet"
    claimState := some
      { eligibility := some (sampleEligState "0"), error := none, txHash := none }
    proofGenerationOk := true
    vault := { priceMerkleRoot := zeroRootHex, policies := fun _ => claimedLedgerPolicy }
    receiptTxHash := "0xreceipt" }

/-- A store holding one policy whose status is already `claimed`. -/
def claimedStore : LocalStorage :=
  singleStore "0xA" [mkPolicy "1" "0xT" (some .claimed)]

/-- A degenerate Poseidon instance (constant zero) for instantiating the
hash-parametric statements at a concrete, fully evaluable input. -/
def zeroPoseidon : List Int → Nat := fun _ => 0

/-- The invoice of the spec's scenario: order `A1`, `$199.99`, product `X1`. -/
def sampleInvoice : InvoiceData := ⟨"A1", 19999 / 100, "2024-01-01", "X1"⟩

/-- The commitment `buildCommitment` produces for `sampleInvoice` with the
zero hashes, salt `5`: tier 2, premium `3000000`, all-zero commitment hex. -/
def sampleResult : CommitmentResult :=
  ⟨"0x" ++ ((List.replicate 63 '0').asString ++ "0"), ⟨0, 199990000, 0, 0, 5, 2⟩,
    2, 3000000⟩

/-- A partial update that tries to push a claimed record back to `active`
with a different premium. -/
def unclaimUpdate : PolicyUpdate := { status := some .active, premium := some "9" }

/-! # Theorems -/

/-- Claim C5, counterexample: the price `499500000` micro-units ($499.50) is
positive and below the maximum tier's max (`10000000000`), yet
`calculateTierAndPremium` throws — the boundary table has a gap between
tier 2 (`max = 499000000`) and tier 3 (`min = 500000000`), so the documented
intervals do not cover the price range without gaps. -/
theorem C5_gap_counterexample :
    (calculateTierAndPremium 499500000).isOk = false
    ∧ (0 : Int) < 499500000
    ∧ (499500000 : Int) ≤ 10000000000
    ∧ (∀ b ∈ TIER_BOUNDARIES, b.max ≤ 10000000000) := by
  refine ⟨by decide, by decide, by decide, by decide⟩

/-- The boundary scan succeeds exactly when some boundary's closed interval
contains the price. -/
theorem scanBoundaries_isOk_iff (bs : List TierBoundary) (x : Int) :
    (scanBoundaries bs x).isOk = true ↔ ∃ b ∈ bs, b.min ≤ x ∧ x ≤ b.max := by
  induction bs with
  | nil => simp [scanBoundaries, Except.isOk, Except.toBool]
  | cons b rest ih =>
    by_cases h : b.min ≤ x ∧ x ≤ b.max
    · simp only [scanBoundaries, if_pos h, Except.isOk, List.mem_cons]
      exact ⟨fun _ => ⟨b, Or.inl rfl, h⟩, fun _ => rfl⟩
    · simp only [scanBoundaries, if_neg h, ih, List.mem_cons]
      constructor
      · rintro ⟨c, hc, hcx⟩; exact ⟨c, Or.inr hc, hcx⟩
      · rintro ⟨c, hmem, hcx⟩
        rcases hmem with rfl | hc
        · exact absurd hcx h
        · exact ⟨c, hc, hcx⟩

/-- Claim C5 as amended: `calculateTierAndPremium` returns the tier and
premium of the (unique) boundary whose closed interval contains the price,
and succeeds exactly when some boundary contains it; the boundaries are
pairwise disjoint (in fact strictly ordered) but do **not** cover the range
gaplessly — prices in `(0, 1000000)` and in the three inter-tier gaps are
also hard errors, beyond `x ≤ 0` and `x` above the maximum max. -/
theorem C5_classify_amended (x : Int) :
    (∀ b ∈ TIER_BOUNDARIES, b.min ≤ x → x ≤ b.max →
        calculateTierAndPremium x = .ok ⟨b.tier, b.premium⟩)
    ∧ ((calculateTierAndPremium x).isOk = true ↔
        ∃ b ∈ TIER_BOUNDARIES, b.min ≤ x ∧ x ≤ b.max)
    ∧ TIER_BOUNDARIES.Pairwise (fun a b => a.max < b.min) := by
  refine ⟨?_, by exact scanBoundaries_isOk_iff TIER_BOUNDARIES x, by decide⟩
  intro b hb h1 h2
  fin_cases hb <;> dsimp only at h1 h2 <;>
    simp only [calculateTierAndPremium, TIER_BOUNDARIES, scanBoundaries] <;>
    split_ifs <;> first | rfl | omega

/-- Claim C5 witness: `150000000` micro-units lies in the tier-2 boundary and
classifies to tier 2 with premium `3000000`. -/
theorem C5_classify_witness :
    calculateTierAndPremium 150000000 = .ok ⟨2, 3000000⟩ :=
  (C5_classify_amended 150000000).1 ⟨100000000, 499000000, 2, 3000000⟩
    (by decide) (by decide) (by decide)

/-- Claim C6, counterexample: at `originalPrice = -1`, `currentPrice = -2`
the drop amount is `1`, so the claimed formula
`dropPercentage = dropAmount / originalPrice × 100` would give `-100`, but
the code computes `0` (its guard zeroes the percentage for every
`originalPrice ≤ 0`, not only for zero). -/
theorem C6_negative_price_counterexample :
    dropAmountOf (-1) (-2) = 1
    ∧ dropPercentageOf (-1) (-2) = 0
    ∧ ((dropAmountOf (-1) (-2) : ℚ) / ((-1 : Int) : ℚ)) * 100 = -100 := by
  refine ⟨by decide, ?_, ?_⟩ <;> norm_num [dropPercentageOf, dropAmountOf]

/-- Claim C6 as amended: `checkEligibility` computes
`dropAmount = max 0 (originalPrice - currentPrice)`;
`dropPercentage = dropAmount / originalPrice × 100` whenever
`originalPrice > 0` and `0` whenever `originalPrice ≤ 0` (in particular when
it is zero); `eligible` holds iff the drop is positive and the (unrounded)
percentage reaches the threshold; and on the scenario
`originalPrice = 199990000`, `currentPrice = 99990000`, threshold `10` it
yields `dropAmount = 100000000`, a returned two-decimal percentage of
exactly `50`, and `eligible = true`. -/
theorem C6_drop_computation_amended (originalPrice currentPrice : Int)
    (threshold : ℚ) (root : String) :
    dropAmountOf originalPrice currentPrice = max 0 (originalPrice - currentPrice)
    ∧ (0 < originalPrice →
        dropPercentageOf originalPrice currentPrice
          = (dropAmountOf originalPrice currentPrice : ℚ) / (originalPrice : ℚ) * 100)
    ∧ (originalPrice ≤ 0 → dropPercentageOf originalPrice currentPrice = 0)
    ∧ ((checkEligibilityCore originalPrice currentPrice threshold root).eligible = true
        ↔ 0 < dropAmountOf originalPrice currentPrice
          ∧ threshold ≤ dropPercentageOf originalPrice currentPrice)
    ∧ (checkEligibilityCore 199990000 99990000 10 root).dropAmount = 100000000
    ∧ (checkEligibilityCore 199990000 99990000 10 root).dropPercentage = 50
    ∧ (checkEligibilityCore 199990000 99990000 10 root).eligible = true := by
  refine ⟨by simp only [dropAmountOf]; omega, ?_, ?_, ?_, ?_, ?_, ?_⟩
  · intro h; simp [dropPercentageOf, h]
  · intro h; simp [dropPercentageOf, not_lt.mpr h]
  · simp [checkEligibilityCore, Bool.and_eq_true, decide_eq_true_iff]
  · norm_num [checkEligibilityCore, dropAmountOf]
  · norm_num [checkEligibilityCore, dropPercentageOf, dropAmountOf, jsRound]
  · norm_num [checkEligibilityCore, dropPercentageOf, dropAmountOf, jsRound]

/-- Claim C6 witness: the percentage formula instantiated at the scenario's
original price `199990000`, which is positive. -/
theorem C6_drop_computation_witness :
    (0 : Int) < 199990000
    ∧ dropPercentageOf 199990000 99990000
        = (dropAmountOf 199990000 99990000 : ℚ) / ((199990000 : Int) : ℚ) * 100 :=
  ⟨by decide, (C6_drop_computation_amended 199990000 99990000 10 "r").2.1 (by decide)⟩

/-- Claim C7, counterexample: the unparseable strings `"abc"` and `"0xzz"`
do **not** encode to the field-zero string `"0"` — `toFieldString` passes
them through trimmed and unvalidated; only the (whitespace-)empty string is
zeroed. -/
theorem C7_unparseable_counterexample :
    toFieldString (.str "abc") = "abc"
    ∧ toFieldString (.str "0xzz") = "0xzz"
    ∧ "abc" ≠ "0"
    ∧ "0xzz" ≠ "0" := by
  refine ⟨by decide, by decide, by decide, by decide⟩

/-- Claim C7 as amended: the encoder is total — an empty (or all-whitespace)
string encodes to `"0"`; a `0x`/`0X` string with valid hex digits encodes to
the decimal string of its value; every other string (including unparseable
hex and arbitrary non-numeric text) passes through trimmed, not zeroed. -/
theorem C7_encoder_amended (s : String) :
    (jsTrim s = "" → toFieldString (.str s) = "0")
    ∧ (∀ n, jsTrim s ≠ "" →
        (jsStartsWith (jsTrim s) "0x" || jsStartsWith (jsTrim s) "0X") = true →
        parseHexDigits ((jsTrim s).data.drop 2) = some n →
        toFieldString (.str s) = toString n)
    ∧ (jsTrim s ≠ "" →
        (jsStartsWith (jsTrim s) "0x" || jsStartsWith (jsTrim s) "0X") = true →
        parseHexDigits ((jsTrim s).data.drop 2) = none →
        toFieldString (.str s) = jsTrim s)
    ∧ (jsTrim s ≠ "" →
        (jsStartsWith (jsTrim s) "0x" || jsStartsWith (jsTrim s) "0X") = false →
        toFieldString (.str s) = jsTrim s) := by
  refine ⟨?_, ?_, ?_, ?_⟩
  · intro h; simp [toFieldString, h]
  · intro n h1 h2 h3; simp [toFieldString, h1, h2, h3]
  · intro h1 h2 h3; simp [toFieldString, h1, h2, h3]
  · intro h1 h2; simp [toFieldString, h1, h2]

/-- Claim C7 witness: `" 0x1a "` trims to a valid hex string and encodes to
the decimal string `"26"`; `"  "` trims to empty and encodes to `"0"`. -/
theorem C7_encoder_witness :
    toFieldString (.str " 0x1a ") = toString (26 : Nat)
    ∧ toFieldString (.str "  ") = "0" :=
  ⟨(C7_encoder_amended " 0x1a ").2.1 26 (by decide) (by decide) (by decide),
   (C7_encoder_amended "  ").1 (by decide)⟩

/-- Claim C8: `checkEligibility` matches the product id by normalized
comparison (uppercase, strip non-alphanumerics) whenever normalizing the
input yields a non-empty key, falls back to trimmed case-insensitive exact
comparison when normalization yields nothing, and fails with the
product-not-found error exactly when neither path matches a catalog entry. -/
theorem C8_product_matching (prices : List OraclePrice)
    (merkleRoot productId : String) (originalPrice : Int) (threshold : ℚ) :
    (normalizeOracleProductId productId ≠ "" →
      matchedProduct prices productId
        = prices.find? (fun price =>
            normalizeOracleProductId price.id == normalizeOracleProductId productId))
    ∧ (normalizeOracleProductId productId = "" →
      matchedProduct prices productId
        = prices.find? (fun price =>
            jsLower (jsTrim price.id) == jsLower (jsTrim productId)))
    ∧ (matchedProduct prices productId = none ↔
        checkEligibility prices merkleRoot productId originalPrice threshold
          = .error s!"Product {productId} not found in oracle catalog.") := by
  refine ⟨?_, ?_, ?_⟩
  · intro h; simp [matchedProduct, h]
  · intro h; simp [matchedProduct, h]
  · constructor
    · intro h; simp [checkEligibility, h]
    · intro h
      cases hm : matchedProduct prices productId with
      | none => rfl
      | some p => simp [checkEligibility, hm] at h

/-- Claim C8 witness: the id `" x-1a "` normalizes to `"X1A"` and matches the
catalog entry with id `"X1A"` through the normalized path. -/
theorem C8_product_matching_witness :
    normalizeOracleProductId " x-1a " ≠ ""
    ∧ matchedProduct [⟨"X1A", "n", 5, 9, 0⟩] " x-1a "
        = [(⟨"X1A", "n", 5, 9, 0⟩ : OraclePrice)].find? (fun price =>
            normalizeOracleProductId price.id == normalizeOracleProductId " x-1a ") :=
  ⟨by decide,
   (C8_product_matching [⟨"X1A", "n", 5, 9, 0⟩] "r" " x-1a " 1 10).1 (by decide)⟩

/-- Claim C9: `savePolicyForAddress` is idempotent on the transaction-hash
dedup key — a second save with the same `transactionHash` is a no-op (it
returns the store unchanged, not an error); a save of a fresh hash appends
exactly one record; and a store whose transaction hashes are pairwise
distinct keeps that invariant under every save. -/
theorem C9_save_idempotent (ls : LocalStorage) (walletAddress : String)
    (r r' : PolicyData) (hsame : r'.transactionHash = r.transactionHash) :
    savePolicyForAddress (savePolicyForAddress ls walletAddress r) walletAddress r'
      = savePolicyForAddress ls walletAddress r
    ∧ ((∀ p ∈ getPoliciesForAddress ls walletAddress,
          p.transactionHash ≠ r.transactionHash) →
        getPoliciesForAddress (savePolicyForAddress ls walletAddress r) walletAddress
          = getPoliciesForAddress ls walletAddress ++ [r])
    ∧ (((getPoliciesForAddress ls walletAddress).map PolicyData.transactionHash).Nodup →
        ((getPoliciesForAddress (savePolicyForAddress ls walletAddress r)
            walletAddress).map PolicyData.transactionHash).Nodup) := by
  by_cases h : (getPoliciesForAddress ls walletAddress).any
      (fun p => p.transactionHash == r.transactionHash)
  · have hsave : savePolicyForAddress ls walletAddress r = ls := by
      simp only [savePolicyForAddress, h, if_true]
    refine ⟨?_, ?_, ?_⟩
    · rw [hsave]
      simp only [savePolicyForAddress, hsame, h, if_true]
    · intro hnew
      rcases List.any_eq_true.mp h with ⟨p, hp, hpeq⟩
      exact absurd (eq_of_beq hpeq) (hnew p hp)
    · intro hnd; rwa [hsave]
  · have hc : ((getPoliciesForAddress ls walletAddress).any
        (fun p => p.transactionHash == r.transactionHash)) = false := by
      simpa using h
    have hget : getPoliciesForAddress (savePolicyForAddress ls walletAddress r)
        walletAddress = getPoliciesForAddress ls walletAddress ++ [r] := by
      simp only [savePolicyForAddress, hc, Bool.false_eq_true, if_false]
      simp [getPoliciesForAddress, setItem]
    have hmem : ((getPoliciesForAddress ls walletAddress ++ [r]).any
        (fun p => p.transactionHash == r'.transactionHash)) = true :=
      List.any_eq_true.mpr ⟨r, List.mem_append_right _ (List.mem_singleton_self r),
        by rw [hsame]; exact beq_self_eq_true _⟩
    refine ⟨?_, fun _ => hget, ?_⟩
    · conv_lhs => rw [savePolicyForAddress, hget]
      rw [hmem]
      simp only [if_true]
    · intro hnd
      rw [hget, List.map_append, List.map_singleton]
      rw [List.nodup_append]
      refine ⟨hnd, List.nodup_singleton _, ?_⟩
      intro a ha hb
      rcases List.mem_map.mp ha with ⟨p, hp, rfl⟩
      rcases List.mem_singleton.mp hb with hb'
      have := List.any_eq_false.mp (Bool.not_eq_true _ ▸ h) p hp
      rw [hb'] at this
      simp at this

/-- Claim C9 witness: saving the same transaction hash twice into an empty
store equals saving it once. -/
theorem C9_save_idempotent_witness :
    savePolicyForAddress (savePolicyForAddress emptyStore "0xA"
        (mkPolicy "1" "0xT" none)) "0xA" (mkPolicy "2" "0xT" none)
      = savePolicyForAddress emptyStore "0xA" (mkPolicy "1" "0xT" none) :=
  (C9_save_idempotent emptyStore "0xA" (mkPolicy "1" "0xT" none)
    (mkPolicy "2" "0xT" none) rfl).1

/-- Claim C10: every successful `checkEligibility` call returns a
`payoutAmount` equal to `dropAmount` — the promised payout is the full price
drop, uncapped by tier, premium, or coverage limit — and it is `0` whenever
the current price is at or above the original insured price. -/
theorem C10_payout_equals_drop (prices : List OraclePrice)
    (merkleRoot productId : String) (originalPrice : Int) (threshold : ℚ)
    (res : EligibilityResult)
    (h : checkEligibility prices merkleRoot productId originalPrice threshold
        = .ok res) :
    res.payoutAmount = res.dropAmount
    ∧ res.payoutAmount = dropAmountOf originalPrice res.currentPrice
    ∧ (originalPrice ≤ res.currentPrice → res.payoutAmount = 0) := by
  unfold checkEligibility at h
  cases hm : matchedProduct prices productId with
  | none => rw [hm] at h; cases h
  | some p =>
    rw [hm] at h
    cases h
    refine ⟨rfl, rfl, ?_⟩
    intro hle
    simp only [checkEligibilityCore, dropAmountOf] at hle ⊢
    rw [if_neg (by omega)]

/-- Claim C10 witness: with a catalog price of `200` and an original price of
`100` (no drop), the eligibility result promises a zero payout. -/
theorem C10_payout_equals_drop_witness :
    checkEligibility [⟨"X1", "n", 200, 0, 0⟩] "root" "X1" 100 10
      = .ok (checkEligibilityCore 100 200 10 "root")
    ∧ (100 : Int) ≤ (checkEligibilityCore 100 200 10 "root").currentPrice
    ∧ (checkEligibilityCore 100 200 10 "root").payoutAmount = 0 :=
  ⟨rfl, by decide,
   (C10_payout_equals_drop [⟨"X1", "n", 200, 0, 0⟩] "root" "X1" 100 10
     (checkEligibilityCore 100 200 10 "root") rfl).2.2 (by decide)⟩

/-- Claim C1, counterexample: the store does not make `claimed` terminal —
`mergePolicyForAddress` applies caller-supplied updates with no guard on the
current status, so a merge on a record whose status is `claimed` can change
its status (and premium) in place. -/
theorem C1_claimed_mutable_counterexample :
    (getPoliciesForAddress claimedStore "0xA").map PolicyData.status
      = [some .claimed]
    ∧ ((getPoliciesForAddress
          (mergePolicyForAddress claimedStore "0xA" "1" unclaimUpdate).1
          "0xA").map PolicyData.status = [some .active])
    ∧ ((getPoliciesForAddress
          (mergePolicyForAddress claimedStore "0xA" "1" unclaimUpdate).1
          "0xA").map PolicyData.premium = ["9"]) := by
  refine ⟨by decide, by decide, by decide⟩

/-- Claim C1 as amended: `savePolicyForAddress` never mutates an existing
record — it is either a no-op (duplicate `transactionHash`) or a pure append,
so a claimed record's status, commitment and premium survive every save; but
`updatePolicyForAddress`/`mergePolicyForAddress` apply the caller's mutation
unconditionally, so the `claimed`-is-terminal discipline is enforced by the
coordinator's call sites, not checked by the store. -/
theorem C1_save_preserves_records (ls : LocalStorage) (walletAddress : String)
    (record : PolicyData) :
    savePolicyForAddress ls walletAddress record = ls
    ∨ getPoliciesForAddress (savePolicyForAddress ls walletAddress record)
        walletAddress = getPoliciesForAddress ls walletAddress ++ [record] := by
  by_cases h : (getPoliciesForAddress ls walletAddress).any
      (fun p => p.transactionHash == record.transactionHash)
  · left
    simp only [savePolicyForAddress, h, if_true]
  · right
    have hc : ((getPoliciesForAddress ls walletAddress).any
        (fun p => p.transactionHash == record.transactionHash)) = false := by
      simpa using h
    simp only [savePolicyForAddress, hc, Bool.false_eq_true, if_false]
    simp [getPoliciesForAddress, setItem]

/-- Claim C2: whenever the ledger's currently published price Merkle root
differs (under the coordinator's own normalization and case-folding) from
the cached eligibility snapshot's root, `handleSubmitClaim` never submits
the `claimPayout` transaction and ends in a rejection; when the submission
passes the guards that precede the root check (wallet connected, snapshot
with proof present, well-formed policy id, proof generation succeeded), that
rejection is specifically the stale-root failure, which requires re-running
the eligibility check. -/
theorem C2_stale_root_rejected (ctx : SubmitContext) (policy : PolicyData)
    (claimState : ClaimState) (eligibility : ClaimEligibilityState)
    (hcs : ctx.claimState = some claimState)
    (he : claimState.eligibility = some eligibility)
    (hroot : jsLower ctx.vault.priceMerkleRoot
      ≠ jsLower (formatMerkleRoot eligibility.merkleRoot)) :
    (handleSubmitClaim ctx policy).2 = false
    ∧ (handleSubmitClaim ctx policy).1.isRejection = true
    ∧ (ctx.address.isSome = true → eligibility.proof.isSome = true →
        isDigitString policy.policyId = true → ctx.proofGenerationOk = true →
        (handleSubmitClaim ctx policy).1 = .staleRoot) := by
  cases ha : ctx.address with
  | none => simp [handleSubmitClaim, ha, SubmitOutcome.isRejection]
  | some addr =>
    simp only [handleSubmitClaim, ha, hcs, he]
    split_ifs <;> simp_all [SubmitOutcome.isRejection]

/-- Claim C2 witness: a concrete context whose on-chain root `"0x1"` differs
from the snapshot root `"0"` is rejected with the stale-root outcome and no
payout transaction. -/
theorem C2_stale_root_witness :
    jsLower staleRootCtx.vault.priceMerkleRoot
      ≠ jsLower (formatMerkleRoot (sampleEligState "0").merkleRoot)
    ∧ (handleSubmitClaim staleRootCtx (mkPolicy "1" "0xT" none)).1 = .staleRoot
    ∧ (handleSubmitClaim staleRootCtx (mkPolicy "1" "0xT" none)).2 = false := by
  refine ⟨by decide, ?_, ?_⟩
  · exact (C2_stale_root_rejected staleRootCtx (mkPolicy "1" "0xT" none)
      _ _ rfl rfl (by decide)).2.2 (by decide) (by decide) (by decide) (by decide)
  · exact (C2_stale_root_rejected staleRootCtx (mkPolicy "1" "0xT" none)
      _ _ rfl rfl (by decide)).1

/-- Claim C3, counterexample: on a ledger record with
`alreadyClaimed = true` whose published root is also stale, the coordinator
fails with the stale-root error, not `AlreadyClaimedError` — the root check
precedes the already-claimed check, so the claim's universally stated error
kind is wrong at this input (though the attempt still fails and no
`claimPayout` transaction is submitted). -/
theorem C3_error_precedence_counterexample :
    (staleRootCtx.vault.policies
        (parseDecimal (mkPolicy "1" "0xT" none).policyId)).alreadyClaimed = true
    ∧ (handleSubmitClaim staleRootCtx (mkPolicy "1" "0xT" none)).1 = .staleRoot
    ∧ (handleSubmitClaim staleRootCtx (mkPolicy "1" "0xT" none)).1
        ≠ .alreadyClaimed := by
  refine ⟨by decide, by decide, by decide⟩

/-- Claim C3 as amended: every claim attempt on a ledger record with
`alreadyClaimed = true` fails without submitting the `claimPayout`
transaction, and the failure is specifically `AlreadyClaimedError` whenever
the attempt passes the checks that precede it (cached snapshot with proof,
well-formed policy id, connected wallet, proof generation, matching root,
matching buyer); with a stale root or foreign buyer, those earlier errors
fire first. -/
theorem C3_already_claimed_amended (ctx : SubmitContext) (policy : PolicyData)
    (hclaimed : (ctx.vault.policies (parseDecimal policy.policyId)).alreadyClaimed
      = true) :
    (handleSubmitClaim ctx policy).2 = false
    ∧ (handleSubmitClaim ctx policy).1.isRejection = true
    ∧ (∀ claimState eligibility,
        ctx.claimState = some claimState →
        claimState.eligibility = some eligibility →
        ctx.address.isSome = true → eligibility.proof.isSome = true →
        isDigitString policy.policyId = true → ctx.proofGenerationOk = true →
        jsLower ctx.vault.priceMerkleRoot
          = jsLower (formatMerkleRoot eligibility.merkleRoot) →
        jsLower (ctx.vault.policies (parseDecimal policy.policyId)).buyer
          = jsLower ctx.signerAddress →
        (handleSubmitClaim ctx policy).1 = .alreadyClaimed) := by
  cases ha : ctx.address with
  | none =>
    refine ⟨by simp [handleSubmitClaim, ha], by simp [handleSubmitClaim, ha,
      SubmitOutcome.isRejection], ?_⟩
    intro cs e _ _ hsome _ _ _ _ _
    simp at hsome
  | some addr =>
    cases hcs : ctx.claimState with
    | none =>
      refine ⟨by simp [handleSubmitClaim, ha, hcs], by simp [handleSubmitClaim,
        ha, hcs, SubmitOutcome.isRejection], ?_⟩
      intro cs e hcs' _ _ _ _ _ _ _
      cases hcs'
    | some cs =>
      cases he : cs.eligibility with
      | none =>
        refine ⟨by simp [handleSubmitClaim, ha, hcs, he], by
          simp [handleSubmitClaim, ha, hcs, he, SubmitOutcome.isRejection], ?_⟩
        intro cs' e hcs' he' _ _ _ _ _ _
        injection hcs' with hcs2
        subst hcs2
        rw [he] at he'
        cases he'
      | some e =>
        have hmain : (handleSubmitClaim ctx policy).2 = false
            ∧ (handleSubmitClaim ctx policy).1.isRejection = true := by
          simp only [handleSubmitClaim, ha, hcs, he]
          split_ifs <;> simp_all [SubmitOutcome.isRejection]
        refine ⟨hmain.1, hmain.2, ?_⟩
        intro cs' e' hcs' he' _ hproof hid hgen hroot hbuyer
        injection hcs' with hcs2
        subst hcs2
        rw [he] at he'
        injection he' with he2
        subst he2
        have hpn : e.proof.isNone = false := by
          cases hp : e.proof with
          | none => rw [hp] at hproof; simp at hproof
          | some v => rfl
        simp only [handleSubmitClaim, ha, hcs, he]
        rw [if_neg (by simp [hpn]), if_neg (by simp [hid]),
          if_neg (by simp [hgen]), if_neg (not_not_intro hroot),
          if_neg (not_not_intro hbuyer), if_pos hclaimed]

/-- Claim C3 witness: with every earlier guard satisfied and a matching root
and buyer, an already-claimed ledger record yields the already-claimed
failure. -/
theorem C3_already_claimed_witness :
    (claimedCtx.vault.policies (parseDecimal "1")).alreadyClaimed = true
    ∧ (handleSubmitClaim claimedCtx (mkPolicy "1" "0xT" none)).1
        = .alreadyClaimed :=
  ⟨by decide,
   (C3_already_claimed_amended claimedCtx (mkPolicy "1" "0xT" none)
       (by decide)).2.2 _ _ rfl rfl (by decide) (by decide) (by decide)
     (by decide) (by decide) (by decide)⟩

/-- Every hex digit character stands for a value below 16 and passes
`isHexDigit`. -/
theorem hexDigitChar_isHexDigit : ∀ d < 16, isHexDigit (hexDigitChar d) = true := by
  decide

/-- The `natToHex` prints at most 64 digits for values below `2 ^ 256`. -/
theorem natToHex_length_le (n : Nat) (hn : n < 2 ^ 256) :
    (natToHex n).length ≤ 64 := by
  by_cases h0 : n = 0
  · subst h0; decide
  · have h16 : n < 16 ^ 64 := by
      calc n < 2 ^ 256 := hn
        _ = 16 ^ 64 := by
          rw [show (16 : ℕ) = 2 ^ 4 by norm_num, ← pow_mul]
    have hlog : Nat.log 16 n < 64 := Nat.log_lt_of_lt_pow h0 h16
    have hlen : (Nat.digits 16 n).length = Nat.log 16 n + 1 :=
      Nat.digits_len 16 n (by norm_num) h0
    simp only [natToHex, if_neg h0]
    show ((Nat.digits 16 n).reverse.map hexDigitChar).length ≤ 64
    simp only [List.length_map, List.length_reverse]
    omega

/-- Every character `natToHex` prints is a hex digit. -/
theorem natToHex_chars_hex (n : Nat) :
    ∀ c ∈ (natToHex n).data, isHexDigit c = true := by
  intro c hc
  by_cases h0 : n = 0
  · subst h0
    have h : (natToHex 0).data = ['0'] := rfl
    rw [h] at hc
    rcases List.mem_singleton.mp hc with rfl
    decide
  · simp only [natToHex, if_neg h0] at hc
    have h : ((Nat.digits 16 n).reverse.map hexDigitChar).asString.data
        = (Nat.digits 16 n).reverse.map hexDigitChar := rfl
    rw [h] at hc
    rcases List.mem_map.mp hc with ⟨d, hd, rfl⟩
    exact hexDigitChar_isHexDigit d
      (Nat.digits_lt_base (by norm_num) (List.mem_reverse.mp hd))

/-- Character-level form of `padStart64` when the input fits in 64 columns. -/
theorem padStart64_data (s : String) (h : s.length ≤ 64) :
    (padStart64 s).data = List.replicate (64 - s.length) '0' ++ s.data := by
  by_cases he : s.length < 64
  · simp only [padStart64, if_pos he]
    rfl
  · simp only [padStart64, if_neg he]
    have h64 : s.length = 64 := le_antisymm h (not_lt.mp he)
    rw [h64, Nat.sub_self, List.replicate_zero, List.nil_append]

/-- The serialized commitment of a field value below `2 ^ 256` is `0x`
followed by exactly 64 hex digit characters. -/
theorem commitmentHexOf_format (v : Nat) (hv : v < 2 ^ 256) :
    (commitmentHexOf v).data.take 2 = ['0', 'x']
    ∧ ((commitmentHexOf v).data.drop 2).length = 64
    ∧ ∀ c ∈ (commitmentHexOf v).data.drop 2, isHexDigit c = true := by
  have hlen := natToHex_length_le v hv
  have hdata : (commitmentHexOf v).data
      = '0' :: 'x' :: (List.replicate (64 - (natToHex v).length) '0'
          ++ (natToHex v).data) := by
    show ("0x" ++ padStart64 (natToHex v)).data = _
    rw [show ("0x" ++ padStart64 (natToHex v)).data
        = '0' :: 'x' :: (padStart64 (natToHex v)).data from rfl]
    rw [padStart64_data _ hlen]
  refine ⟨by rw [hdata]; rfl, ?_, ?_⟩
  · rw [hdata]
    show (List.replicate (64 - (natToHex v).length) '0'
        ++ (natToHex v).data).length = 64
    rw [List.length_append, List.length_replicate]
    have : (natToHex v).data.length = (natToHex v).length := rfl
    omega
  · rw [hdata]
    intro c hc
    rcases List.mem_append.mp hc with hrep | hdig
    · rw [List.eq_of_mem_replicate hrep]; decide
    · exact natToHex_chars_hex v c hdig

/-- Claim C4: a successful `buildCommitment` run commits to exactly the six
opening fields — its commitment string is the Poseidon hash of
`(orderHash, invoicePrice, invoiceDate, productHash, salt, selectedTier)`
serialized big-endian as `0x` plus a fixed 64 hex digits (for any Poseidon
whose outputs are field-sized, i.e. below `2 ^ 256`); the salt is the one
supplied; and re-running with the same inputs and the same salt reproduces
the identical result. -/
theorem C4_commitment_poseidon (poseidon : List Int → Nat)
    (keccak : String → Nat) (parseDateMs : String → Int)
    (invoiceData : InvoiceData) (salt : Nat) (res : CommitmentResult)
    (hfield : ∀ l, poseidon l < 2 ^ 256)
    (h : buildCommitment poseidon keccak parseDateMs invoiceData salt
      = .ok res) :
    res.commitment = commitmentHexOf (poseidon
      [ (res.details.orderHash : Int), res.details.invoicePrice,
        res.details.invoiceDate, (res.details.productHash : Int),
        (res.details.salt : Int), (res.details.selectedTier : Int) ])
    ∧ res.details.salt = salt
    ∧ res.commitment.data.take 2 = ['0', 'x']
    ∧ (res.commitment.data.drop 2).length = 64
    ∧ (∀ c ∈ res.commitment.data.drop 2, isHexDigit c = true)
    ∧ (∀ res', buildCommitment poseidon keccak parseDateMs invoiceData salt
        = .ok res' → res' = res) := by
  simp only [buildCommitment] at h
  cases htp : calculateTierAndPremium
      (jsRound (invoiceData.purchasePriceUsd * 1000000)) with
  | error e => rw [htp] at h; cases h
  | ok tp =>
    rw [htp] at h
    injection h with h
    subst h
    refine ⟨rfl, rfl, (commitmentHexOf_format _ (hfield _)).1,
      (commitmentHexOf_format _ (hfield _)).2.1,
      (commitmentHexOf_format _ (hfield _)).2.2, ?_⟩
    intro res' h'
    simp only [buildCommitment] at h'
    rw [htp] at h'
    injection h' with h'
    exact h'.symm

/-- Claim C4 witness: the scenario invoice (`$199.99`, tier 2, premium
`3000000`) with the zero Poseidon and salt `5` builds exactly
`sampleResult`, whose hex commitment carries 64 digits after `0x`. -/
theorem C4_commitment_witness :
    buildCommitment zeroPoseidon (fun _ => 0) (fun _ => 0) sampleInvoice 5
      = .ok sampleResult
    ∧ (sampleResult.commitment.data.drop 2).length = 64 := by
  have hprice : jsRound ((19999 / 100 : ℚ) * 1000000) = 199990000 := by
    norm_num [jsRound, Int.floor_eq_iff]
  have hb : buildCommitment zeroPoseidon (fun _ => 0) (fun _ => 0)
      sampleInvoice 5 = .ok sampleResult := by
    simp only [buildCommitment, sampleInvoice, hprice]
    rfl
  exact ⟨hb, (C4_commitment_poseidon zeroPoseidon (fun _ => 0) (fun _ => 0)
    sampleInvoice 5 sampleResult (fun l => by norm_num [zeroPoseidon]) hb).2.2.2.1⟩

end Ripapp
